import Mathlib

/-!
# Verification of the contact-manager core (`bot.py`)

A shallow embedding of the in-memory data model of the assistant bot:
validated fields (`Phone`, `Birthday`), contact records, the address book,
and the upcoming-birthday computation, together with theorems checking the
natural-language specification against this embedding.

Python `datetime.date` values are modelled by the proleptic Gregorian
calendar (structure `Date` below); Python's `date.toordinal` is `toOrdinal`
(ordinal 1 is 0001-01-01) and `date.weekday()` is `weekday` (Monday = 0,
..., Saturday = 5, Sunday = 6).  Errors raised as `ValueError msg` in
Python are modelled by `Except String` carrying the message, or by
`Option` where only success/failure matters.
-/

namespace Bot

/-! ## Calendar model (Python `datetime.date`) -/

/-- A proleptic Gregorian calendar date, as held by Python `datetime.date`.
Python restricts the year to `1..9999`; that restriction lives in
`validDate`, not in the structure. -/
structure Date where
  year : Nat
  month : Nat
  day : Nat
  deriving DecidableEq, Repr

/-- Gregorian leap-year rule, as used by `datetime`. -/
def isLeap (y : Nat) : Bool :=
  y % 4 == 0 && (y % 100 != 0 || y % 400 == 0)

/-- Number of days in month `m` of year `y` (months `1..12`). -/
def daysInMonth (y m : Nat) : Nat :=
  if m == 2 then (if isLeap y then 29 else 28)
  else if m == 4 || m == 6 || m == 9 || m == 11 then 30
  else 31

/-- Whether `(y, m, d)` is accepted by the `datetime.date` constructor:
year in `1..9999`, month in `1..12`, day in `1..daysInMonth`. -/
def validDate (dt : Date) : Bool :=
  1 ≤ dt.year && dt.year ≤ 9999 && 1 ≤ dt.month && dt.month ≤ 12 &&
    1 ≤ dt.day && dt.day ≤ daysInMonth dt.year dt.month

/-- Days in all years strictly before year `y` (proleptic Gregorian). -/
def daysBeforeYear (y : Nat) : Nat :=
  365 * (y - 1) + (y - 1) / 4 - (y - 1) / 100 + (y - 1) / 400

/-- Days in all months of year `y` strictly before month `m`. -/
def daysBeforeMonth (y m : Nat) : Nat :=
  (List.range (m - 1)).foldl (fun acc i => acc + daysInMonth y (i + 1)) 0

/-- Python `date.toordinal()`: day number with 0001-01-01 ↦ 1. -/
def toOrdinal (dt : Date) : Nat :=
  daysBeforeYear dt.year + daysBeforeMonth dt.year dt.month + dt.day

/-- Python `date.weekday()`: Monday = 0, ..., Saturday = 5, Sunday = 6. -/
def weekday (dt : Date) : Nat :=
  (toOrdinal dt - 1) % 7

/-- Python date comparison `a < b` (time order; for `datetime.date` this is
lexicographic on year, month, day). -/
def dateLt (a b : Date) : Bool :=
  a.year < b.year ||
    (a.year == b.year &&
      (a.month < b.month || (a.month == b.month && a.day < b.day)))

/-- The successor date (the effect of `+ timedelta(days=1)` on a valid
date). -/
def nextDay (dt : Date) : Date :=
  if dt.day < daysInMonth dt.year dt.month then
    { dt with day := dt.day + 1 }
  else if dt.month < 12 then
    { year := dt.year, month := dt.month + 1, day := 1 }
  else
    { year := dt.year + 1, month := 1, day := 1 }

/-- `date + timedelta(days = n)`, as `n` successor steps. -/
def addDays (dt : Date) : Nat → Date
  | 0 => dt
  | n + 1 => nextDay (addDays dt n)

/-! ## String helpers (digits and `DD.MM.YYYY` rendering) -/

/-- Numeric value of a decimal digit character (`'0'.toNat = 48`). -/
def charVal (c : Char) : Nat := c.toNat - 48

/-- Numeric value of a list of decimal digit characters. -/
def toNatDigits (cs : List Char) : Nat :=
  cs.foldl (fun n c => 10 * n + charVal c) 0

/-- Two-digit zero-padded rendering, as `strftime` `%d` / `%m` produce for
values below 100. -/
def pad2 (n : Nat) : String :=
  String.mk [Nat.digitChar (n / 10 % 10), Nat.digitChar (n % 10)]

/-- Four-digit zero-padded rendering, as `strftime` `%Y` produces for
years below 10000. -/
def pad4 (n : Nat) : String :=
  String.mk [Nat.digitChar (n / 1000 % 10), Nat.digitChar (n / 100 % 10),
    Nat.digitChar (n / 10 % 10), Nat.digitChar (n % 10)]

/-- `Birthday.__str__` / the scheduler's `strftime("%d.%m.%Y")`. -/
def formatDate (dt : Date) : String :=
  pad2 dt.day ++ "." ++ pad2 dt.month ++ "." ++ pad4 dt.year

/-- `re.sub(r"\D", "", value)`: drop every non-digit character. -/
def stripNonDigits (s : String) : String :=
  ⟨s.data.filter Char.isDigit⟩

/-! ## `Phone` (bot.py lines 24-38) -/

/-- `Phone._is_valid_phone`: `re.fullmatch(r"\d{10}", value)` on a string. -/
def is_valid_phone (v : String) : Bool :=
  v.data.all Char.isDigit && v.length == 10

/-- The `Phone` constructor: strip non-digits, validate, store the cleaned
string; `.error msg` models `raise ValueError(msg)`. -/
def mkPhone (value : String) : Except String String :=
  let cleaned := stripNonDigits value
  if is_valid_phone cleaned then .ok cleaned
  else .error "Phone number must contain exactly 10 digits"

/-! ## `Birthday` (bot.py lines 41-50)

`Birthday.__init__` calls `datetime.strptime(value, "%d.%m.%Y")`.
CPython's `_strptime` compiles the format to the anchored regex
`(3[01]|[12]\d|0[1-9]|[1-9])\.(1[0-2]|0[1-9]|[1-9])\.(\d\d\d\d)` and then
rejects any unconverted trailing data, so the day and month tokens are one
OR two digit strings with values in range, and the year token is exactly
four digits; the resulting `datetime(year, month, day)` construction then
enforces calendar validity (including `year ≥ 1`).  `parseBirthday`
mirrors this: split the character list at the non-digit positions and
check the token lengths and the calendar validity of the values. -/

/-- `datetime.strptime(value, "%d.%m.%Y")` followed by the `datetime`
constructor's validity check; `none` models the re-raised `ValueError`
(`"Invalid date format. Use DD.MM.YYYY. ..."`). -/
def parseBirthday (s : String) : Option Date :=
  let p1 := s.data.span Char.isDigit
  match p1.2 with
  | '.' :: rest1 =>
    let p2 := rest1.span Char.isDigit
    match p2.2 with
    | '.' :: rest2 =>
      let p3 := rest2.span Char.isDigit
      if p3.2 == [] && 1 ≤ p1.1.length && p1.1.length ≤ 2 &&
          toNatDigits p1.1 ≤ 31 &&
          1 ≤ p2.1.length && p2.1.length ≤ 2 && toNatDigits p2.1 ≤ 12 &&
          p3.1.length == 4 &&
          validDate ⟨toNatDigits p3.1, toNatDigits p2.1, toNatDigits p1.1⟩
      then some ⟨toNatDigits p3.1, toNatDigits p2.1, toNatDigits p1.1⟩
      else none
    | _ => none
  | _ => none

/-- The strict textual pattern named by the specification: two-digit day,
dot, two-digit month, dot, four-digit year. -/
def strictFormat (s : String) : Bool :=
  match s.data with
  | [d1, d2, '.', m1, m2, '.', y1, y2, y3, y4] =>
    [d1, d2, m1, m2, y1, y2, y3, y4].all Char.isDigit
  | _ => false

/-! ## `Record` (bot.py lines 53-94)

A record owns a name, an ordered list of phones and an optional birthday.
Phones are stored as their normalized (cleaned) digit strings, the `value`
of the Python `Phone` objects.  Mutating methods are modelled as state
transformers returning the outcome together with the post-state, so that
"error raised, state untouched" is expressible. -/

structure Record where
  name : String
  phones : List String
  birthday : Option Date
  deriving DecidableEq, Repr

/-- `Record.find_phone`, returning the index of the first phone whose
stored value equals the cleaned query (`None` ↦ `none`). -/
def find_phone (r : Record) (phone : String) : Option Nat :=
  let cleaned := stripNonDigits phone
  r.phones.findIdx? (fun v => v == cleaned)

/-- `Record.add_phone`: validate via `Phone`, append. -/
def add_phone (r : Record) (phone : String) : Except String Unit × Record :=
  match mkPhone phone with
  | .error e => (.error e, r)
  | .ok v => (.ok (), { r with phones := r.phones ++ [v] })

/-- `Record.remove_phone`: find the first match, raise
`ValueError("Phone not found")` if absent, else remove that entry. -/
def remove_phone (r : Record) (phone : String) :
    Except String Unit × Record :=
  match find_phone r phone with
  | none => (.error "Phone not found", r)
  | some i => (.ok (), { r with phones := r.phones.eraseIdx i })

/-- `Record.edit_phone`: find the first match of `old_phone`, raise
`ValueError("Phone not found")` if absent, else set the matched entry to
`Phone(new_phone).value` (which raises first if `new_phone` is invalid). -/
def edit_phone (r : Record) (old_phone new_phone : String) :
    Except String Unit × Record :=
  match find_phone r old_phone with
  | none => (.error "Phone not found", r)
  | some i =>
    match mkPhone new_phone with
    | .error e => (.error e, r)
    | .ok v => (.ok (), { r with phones := r.phones.set i v })

/-- `Record.add_birthday`: validate via `Birthday`, set/overwrite. -/
def add_birthday (r : Record) (birthday : String) :
    Except String Unit × Record :=
  match parseBirthday birthday with
  | none => (.error "Invalid date format. Use DD.MM.YYYY.", r)
  | some d => (.ok (), { r with birthday := some d })

/-- `Record.__str__`. -/
def recordStr (r : Record) : String :=
  let phones_str := String.intercalate "; " r.phones
  let birthday_str :=
    match r.birthday with
    | some b => ", birthday: " ++ formatDate b
    | none => ""
  "Contact name: " ++ r.name ++ ", phones: " ++ phones_str ++ birthday_str

/-! ## `AddressBook` (bot.py lines 97-159)

The book is a Python `dict` keyed by the record's name; dicts preserve
insertion order and overwrite in place, so it is modelled as a list of
records with the dict update semantics. -/

abbrev AddressBook := List Record

/-- `AddressBook.add_record`: `self.data[record.name.value] = record` —
overwrite in place if the key exists, else append. -/
def add_record (book : AddressBook) (record : Record) : AddressBook :=
  if book.any (fun r => r.name == record.name) then
    book.map (fun r => if r.name == record.name then record else r)
  else
    book ++ [record]

/-- `AddressBook.find`: `self.data.get(name)`. -/
def find (book : AddressBook) (name : String) : Option Record :=
  book.find? (fun r => r.name == name)

/-- `AddressBook.delete`: remove the entry if present, else no-op. -/
def delete (book : AddressBook) (name : String) : AddressBook :=
  book.filter (fun r => r.name != name)

/-- Lines 119-136 of `get_upcoming_birthdays`: the `birthday_this_year`
candidate.  The `try: replace(year=y) except ValueError: replace(year=y,
day=28)` pattern appears as: use `replace(year=y)` when it is a valid
date, else `replace(year=y, day=28)`. -/
def codeCandidate (birthday_date today : Date) : Date :=
  let birthday_this_year :=
    if validDate { birthday_date with year := today.year } then
      { birthday_date with year := today.year }
    else { birthday_date with year := today.year, day := 28 }
  if dateLt birthday_this_year today then
    if validDate { birthday_date with year := today.year + 1 } then
      { birthday_date with year := today.year + 1 }
    else { birthday_date with year := today.year + 1, day := 28 }
  else birthday_this_year

/-- The body of the `for record in self.data.values()` loop of
`get_upcoming_birthdays`: the entry this record contributes, if any. -/
def processRecord (today : Date) (record : Record) :
    Option (String × String) :=
  match record.birthday with
  | none => none
  | some birthday_date =>
    let birthday_this_year := codeCandidate birthday_date today
    let days_until : Int :=
      (toOrdinal birthday_this_year : Int) - (toOrdinal today : Int)
    if 0 ≤ days_until && days_until ≤ 7 then
      let congratulation_date :=
        if weekday birthday_this_year == 5 then addDays birthday_this_year 2
        else if weekday birthday_this_year == 6 then
          addDays birthday_this_year 1
        else birthday_this_year
      some (record.name, formatDate congratulation_date)
    else none

/-- `AddressBook.get_upcoming_birthdays`, with `datetime.today().date()`
made an explicit input: the returned list and the post-state of the book.
The method only reads the book, so the post-state is the book itself. -/
def get_upcoming_birthdays (book : AddressBook) (today : Date) :
    List (String × String) × AddressBook :=
  (book.filterMap (processRecord today), book)

/-! ## Specification-side definitions

These two definitions follow the words of the specification (§4.3 steps
1-5), to be compared with the code-derived `processRecord`. -/

/-- The candidate date of §4.3 steps 1-3, written from the spec's words:
build the birthday's month/day in `today`'s year, substituting day 28 for
Feb 29 when that year is not leap, and redo for `today.year + 1` (same
substitution) when the candidate is strictly before `today`. -/
def specCandidate (birthday today : Date) : Date :=
  let build : Nat → Date := fun y =>
    if birthday.month = 2 ∧ birthday.day = 29 ∧ ¬ isLeap y then
      ⟨y, 2, 28⟩
    else
      ⟨y, birthday.month, birthday.day⟩
  let c := build today.year
  if dateLt c today then build (today.year + 1) else c

/-- The congratulation date of §4.3 step 5, written from the spec's words:
shift a Saturday candidate forward 2 days, a Sunday candidate forward 1
day, leave the rest unchanged (Monday = 0, ..., Saturday = 5, Sunday = 6). -/
def specCongratulation (candidate : Date) : Date :=
  if weekday candidate = 5 then addDays candidate 2
  else if weekday candidate = 6 then addDays candidate 1
  else candidate

/-! ## Helper lemmas -/

theorem char_eq_of_toNat_eq {c d : Char} (h : c.toNat = d.toNat) : c = d :=
  Char.eq_of_val_eq (UInt32.toNat.inj h)

theorem isDigit_toNat {c : Char} (h : c.isDigit = true) :
    48 ≤ c.toNat ∧ c.toNat ≤ 57 := by
  simp only [Char.isDigit, ge_iff_le, Bool.and_eq_true, decide_eq_true_eq,
    UInt32.le_def, BitVec.le_def] at h
  exact h

/-- A digit character is recovered from its numeric value. -/
theorem digitChar_charVal {c : Char} (h : c.isDigit = true) :
    Nat.digitChar (charVal c) = c := by
  obtain ⟨h1, h2⟩ := isDigit_toNat h
  have hc : c.toNat = 48 + charVal c := by unfold charVal; omega
  have hk : charVal c ≤ 9 := by unfold charVal; omega
  set k := charVal c with hkdef
  interval_cases k <;> exact char_eq_of_toNat_eq (by rw [hc]; decide)

theorem charVal_le_9 {c : Char} (h : c.isDigit = true) : charVal c ≤ 9 := by
  obtain ⟨h1, h2⟩ := isDigit_toNat h
  unfold charVal
  omega

theorem toNatDigits_pair (a b : Char) :
    toNatDigits [a, b] = 10 * charVal a + charVal b := by
  simp [toNatDigits, List.foldl]

theorem toNatDigits_quad (a b c d : Char) :
    toNatDigits [a, b, c, d] =
      1000 * charVal a + 100 * charVal b + 10 * charVal c + charVal d := by
  simp [toNatDigits, List.foldl]
  ring

/-- `pad2` undoes `toNatDigits` on two digit characters. -/
theorem pad2_toNatDigits {a b : Char} (ha : a.isDigit = true)
    (hb : b.isDigit = true) : pad2 (toNatDigits [a, b]) = String.mk [a, b] := by
  have ha9 := charVal_le_9 ha
  have hb9 := charVal_le_9 hb
  rw [toNatDigits_pair, pad2]
  have e1 : (10 * charVal a + charVal b) / 10 % 10 = charVal a := by omega
  have e2 : (10 * charVal a + charVal b) % 10 = charVal b := by omega
  rw [e1, e2, digitChar_charVal ha, digitChar_charVal hb]

/-- `pad4` undoes `toNatDigits` on four digit characters. -/
theorem pad4_toNatDigits {a b c d : Char} (ha : a.isDigit = true)
    (hb : b.isDigit = true) (hc : c.isDigit = true) (hd : d.isDigit = true) :
    pad4 (toNatDigits [a, b, c, d]) = String.mk [a, b, c, d] := by
  have ha9 := charVal_le_9 ha
  have hb9 := charVal_le_9 hb
  have hc9 := charVal_le_9 hc
  have hd9 := charVal_le_9 hd
  rw [toNatDigits_quad, pad4]
  have e1 : (1000 * charVal a + 100 * charVal b + 10 * charVal c + charVal d)
      / 1000 % 10 = charVal a := by omega
  have e2 : (1000 * charVal a + 100 * charVal b + 10 * charVal c + charVal d)
      / 100 % 10 = charVal b := by omega
  have e3 : (1000 * charVal a + 100 * charVal b + 10 * charVal c + charVal d)
      / 10 % 10 = charVal c := by omega
  have e4 : (1000 * charVal a + 100 * charVal b + 10 * charVal c + charVal d)
      % 10 = charVal d := by omega
  rw [e1, e2, e3, e4, digitChar_charVal ha, digitChar_charVal hb,
    digitChar_charVal hc, digitChar_charVal hd]

/-- `span` splits an all-`p` prefix at the first failing element. -/
theorem span_append {p : Char → Bool} (l : List Char) (c : Char)
    (r : List Char) (hl : l.all p = true) (hc : p c = false) :
    (l ++ c :: r).span p = (l, c :: r) := by
  induction l with
  | nil => simp [List.span_eq_take_drop, List.takeWhile, List.dropWhile, hc]
  | cons x xs ih =>
    simp only [List.all_cons, Bool.and_eq_true] at hl
    have := ih hl.2
    simp only [List.span_eq_take_drop, List.takeWhile, List.dropWhile,
      List.cons_append, hl.1] at *
    simp_all

/-- `span` consumes an all-`p` list entirely. -/
theorem span_all {p : Char → Bool} (l : List Char) (hl : l.all p = true) :
    l.span p = (l, []) := by
  induction l with
  | nil => simp [List.span_eq_take_drop]
  | cons x xs ih =>
    simp only [List.all_cons, Bool.and_eq_true] at hl
    have := ih hl.2
    simp only [List.span_eq_take_drop, List.takeWhile, List.dropWhile,
      hl.1] at *
    simp_all

theorem daysInMonth_le_31 (y m : Nat) : daysInMonth y m ≤ 31 := by
  unfold daysInMonth
  split
  · split <;> omega
  · split <;> omega

/-- Unfolding of `validDate` into propositional bounds. -/
theorem validDate_iff (dt : Date) :
    validDate dt = true ↔
      1 ≤ dt.year ∧ dt.year ≤ 9999 ∧ 1 ≤ dt.month ∧ dt.month ≤ 12 ∧
        1 ≤ dt.day ∧ dt.day ≤ daysInMonth dt.year dt.month := by
  simp [validDate, and_assoc]

/-- Exact characterization of the strings `Birthday` accepts: a one-or-two
digit day, a dot, a one-or-two digit month, a dot, and a four-digit year,
denoting a valid calendar date. -/
theorem parseBirthday_eq_some_iff (s : String) (dt : Date) :
    parseBirthday s = some dt ↔
      ∃ dcs mcs ycs : List Char,
        s.data = dcs ++ '.' :: (mcs ++ '.' :: ycs) ∧
        dcs.all Char.isDigit = true ∧ mcs.all Char.isDigit = true ∧
        ycs.all Char.isDigit = true ∧
        1 ≤ dcs.length ∧ dcs.length ≤ 2 ∧
        1 ≤ mcs.length ∧ mcs.length ≤ 2 ∧ ycs.length = 4 ∧
        dt = ⟨toNatDigits ycs, toNatDigits mcs, toNatDigits dcs⟩ ∧
        validDate dt = true := by
  constructor
  · intro h
    unfold parseBirthday at h
    dsimp only [] at h
    simp only [List.span_eq_take_drop] at h
    split at h
    case h_2 => exact absurd h (by simp)
    case h_1 c1 rest1 heq1 =>
    split at h
    case h_2 => exact absurd h (by simp)
    case h_1 c2 rest2 heq2 =>
    split at h
    case isFalse => exact absurd h (by simp)
    case isTrue hcond =>
    simp only [Option.some.injEq] at h
    simp only [Bool.and_eq_true, beq_iff_eq, decide_eq_true_eq] at hcond
    obtain ⟨⟨⟨⟨⟨⟨⟨⟨h4, hb1⟩, hb2⟩, h31⟩, hc1⟩, hc2⟩, h12⟩, hy4⟩, hvd⟩ :=
      hcond
    set dcs := s.data.takeWhile Char.isDigit with hdcs
    set mcs := rest1.takeWhile Char.isDigit with hmcs
    set ycs := rest2.takeWhile Char.isDigit with hycs
    have e1 : dcs ++ '.' :: rest1 = s.data := by
      rw [← heq1, hdcs]
      exact List.takeWhile_append_dropWhile Char.isDigit s.data
    have e2 : mcs ++ '.' :: rest2 = rest1 := by
      rw [← heq2, hmcs]
      exact List.takeWhile_append_dropWhile Char.isDigit rest1
    have e3 : ycs = rest2 := by
      have := List.takeWhile_append_dropWhile Char.isDigit rest2
      rw [h4, List.append_nil] at this
      rw [hycs, this]
    refine ⟨dcs, mcs, ycs, ?_, ?_, ?_, ?_, hb1, hb2, hc1, hc2, ?_, h.symm,
      ?_⟩
    · rw [← e1, ← e2, e3]
    · rw [hdcs]
      exact List.all_takeWhile
    · rw [hmcs]
      exact List.all_takeWhile
    · rw [hycs]
      exact List.all_takeWhile
    · exact hy4
    · rw [← h]
      exact hvd
  · rintro ⟨dcs, mcs, ycs, hdata, hd, hm, hy, hd1, hd2, hm1, hm2, hy4,
      hdt, hvalid⟩
    have hdot : Char.isDigit '.' = false := by decide
    unfold parseBirthday
    rw [show s.data = dcs ++ '.' :: (mcs ++ '.' :: ycs) from hdata]
    rw [span_append dcs '.' (mcs ++ '.' :: ycs) hd hdot]
    simp only []
    rw [span_append mcs '.' ycs hm hdot]
    simp only []
    rw [span_all ycs hy]
    have hbounds := (validDate_iff dt).mp hvalid
    rw [hdt] at hbounds
    have h31 : toNatDigits dcs ≤ 31 :=
      le_trans hbounds.2.2.2.2.2 (daysInMonth_le_31 _ _)
    have h12 : toNatDigits mcs ≤ 12 := hbounds.2.2.2.1
    rw [if_pos]
    · rw [← hdt]
    · rw [← hdt, hvalid]
      simp [hd1, hd2, hm1, hm2, hy4, h31, h12]

theorem daysInMonth_ne_two {y yy m : Nat} (hm : m ≠ 2) :
    daysInMonth y m = daysInMonth yy m := by
  unfold daysInMonth
  simp [hm]

/-- The `try: replace(year=y) except ValueError: replace(year=y, day=28)`
pattern of the scheduler coincides, on valid birthdays, with the spec's
"substitute day 28 for Feb 29 in a non-leap year" rule. -/
theorem tryReplace_eq_specBuild (bd : Date) (y : Nat)
    (hbd : validDate bd = true) (hy1 : 1 ≤ y) (hy2 : y ≤ 9999) :
    (if validDate ⟨y, bd.month, bd.day⟩ then (⟨y, bd.month, bd.day⟩ : Date)
      else ⟨y, bd.month, 28⟩) =
      if bd.month = 2 ∧ bd.day = 29 ∧ ¬ isLeap y then (⟨y, 2, 28⟩ : Date)
      else ⟨y, bd.month, bd.day⟩ := by
  obtain ⟨hby1, hby2, hm1, hm12, hd1, hdM⟩ := (validDate_iff bd).mp hbd
  by_cases hm2 : bd.month = 2
  · by_cases hd29 : bd.day = 29
    · by_cases hl : isLeap y = true
      · rw [if_pos, if_neg]
        · simp [hl]
        · rw [validDate_iff]
          refine ⟨hy1, hy2, ?_, ?_, ?_, ?_⟩ <;>
            simp [hm2, hd29, daysInMonth, hl]
      · rw [if_neg, if_pos, hm2]
        · exact ⟨hm2, hd29, by simp [hl]⟩
        · rw [validDate_iff]
          simp [hm2, hd29, daysInMonth, hl]
    · have h29 : bd.day ≤ 29 := by
        have : daysInMonth bd.year bd.month ≤ 29 := by
          unfold daysInMonth
          simp [hm2]
          split <;> omega
        omega
      rw [if_pos, if_neg]
      · simp [hd29]
      · rw [validDate_iff]
        refine ⟨hy1, hy2, hm1, hm12, hd1, ?_⟩
        unfold daysInMonth
        simp [hm2]
        split <;> omega
  · rw [if_pos, if_neg]
    · simp [hm2]
    · rw [validDate_iff]
      refine ⟨hy1, hy2, hm1, hm12, hd1, ?_⟩
      rw [daysInMonth_ne_two hm2]
      exact hdM

/-- On valid birthdays the code's candidate (`try/except` fallbacks)
equals the spec's candidate (explicit Feb-29 rule). -/
theorem codeCandidate_eq_spec (bd today : Date) (hbd : validDate bd = true)
    (ht1 : 1 ≤ today.year) (ht2 : today.year ≤ 9998) :
    codeCandidate bd today = specCandidate bd today := by
  unfold codeCandidate specCandidate
  dsimp only []
  rw [tryReplace_eq_specBuild bd today.year hbd ht1 (by omega),
    tryReplace_eq_specBuild bd (today.year + 1) hbd (by omega) (by omega)]

/-- The weekday shift written with `==` (as in the code) equals
`specCongratulation`. -/
theorem congrat_eq (c : Date) :
    (if weekday c == 5 then addDays c 2
      else if weekday c == 6 then addDays c 1 else c) =
      specCongratulation c := by
  unfold specCongratulation
  simp only [beq_iff_eq]

/-- The scheduler's per-record computation, rewritten through the
spec-side candidate and congratulation definitions. -/
theorem processRecord_eq_spec (today bd : Date) (r : Record)
    (hr : r.birthday = some bd) (hbd : validDate bd = true)
    (ht1 : 1 ≤ today.year) (ht2 : today.year ≤ 9998) :
    processRecord today r =
      (if 0 ≤ (toOrdinal (specCandidate bd today) : Int) -
            (toOrdinal today : Int) ∧
          (toOrdinal (specCandidate bd today) : Int) -
            (toOrdinal today : Int) ≤ 7 then
        some (r.name, formatDate (specCongratulation (specCandidate bd today)))
      else none) := by
  unfold processRecord
  rw [hr]
  dsimp only []
  rw [codeCandidate_eq_spec bd today hbd ht1 ht2, congrat_eq]
  simp only [Bool.and_eq_true, decide_eq_true_eq]

/-! ## Claim theorems -/

/-- C1: a record with a birthday is included by `get_upcoming_birthdays`
iff the next occurrence of the birthday's month/day on or after today —
built in today's year with day 28 substituted for Feb 29 in a non-leap
year, redone for the next year when strictly before today — is at most 7
days away; in particular a 29.02 birthday with today = 25.02.2025 yields
candidate 28.02.2025 at 3 days. -/
theorem upcoming_birthday_window_iff (today bd : Date) (r : Record)
    (hbd : validDate bd = true) (htoday : validDate today = true)
    (hy : today.year ≤ 9998) (hr : r.birthday = some bd) :
    ((processRecord today r).isSome = true ↔
        0 ≤ (toOrdinal (specCandidate bd today) : Int) -
            (toOrdinal today : Int) ∧
          (toOrdinal (specCandidate bd today) : Int) -
            (toOrdinal today : Int) ≤ 7) ∧
      specCandidate ⟨2000, 2, 29⟩ ⟨2025, 2, 25⟩ = ⟨2025, 2, 28⟩ ∧
      (toOrdinal (specCandidate ⟨2000, 2, 29⟩ ⟨2025, 2, 25⟩) : Int) -
          (toOrdinal (⟨2025, 2, 25⟩ : Date) : Int) = 3 := by
  have ht1 : 1 ≤ today.year := ((validDate_iff today).mp htoday).1
  refine ⟨?_, by decide, by decide⟩
  rw [processRecord_eq_spec today bd r hr hbd ht1 hy]
  split
  case isTrue h => simpa using h
  case isFalse h => simpa using h

/-- C1 witness: contact "Dee" with birthday 29.02.2000 is included on
today = 25.02.2025. -/
theorem upcoming_birthday_window_iff_witness :
    (processRecord ⟨2025, 2, 25⟩ ⟨"Dee", [], some ⟨2000, 2, 29⟩⟩).isSome =
      true :=
  (upcoming_birthday_window_iff ⟨2025, 2, 25⟩ ⟨2000, 2, 29⟩
      ⟨"Dee", [], some ⟨2000, 2, 29⟩⟩ (by decide) (by decide) (by decide)
      rfl).1.mpr (by decide)

/-- C2: an emitted entry carries the record's name and the candidate date
shifted by 2 days off a Saturday and 1 day off a Sunday, formatted
`DD.MM.YYYY`; in particular the Saturday candidate 15.03.2025 produces
"17.03.2025". -/
theorem upcoming_congratulation_shift (today bd : Date) (r : Record)
    (n s : String) (hbd : validDate bd = true)
    (htoday : validDate today = true) (hy : today.year ≤ 9998)
    (hr : r.birthday = some bd)
    (hout : processRecord today r = some (n, s)) :
    n = r.name ∧
      s = formatDate (specCongratulation (specCandidate bd today)) ∧
      processRecord ⟨2025, 3, 10⟩ ⟨"Bob", [], some ⟨2025, 3, 15⟩⟩ =
        some ("Bob", "17.03.2025") ∧
      weekday ⟨2025, 3, 15⟩ = 5 := by
  have ht1 : 1 ≤ today.year := ((validDate_iff today).mp htoday).1
  rw [processRecord_eq_spec today bd r hr hbd ht1 hy] at hout
  split at hout
  case isTrue h =>
    simp only [Option.some.injEq, Prod.mk.injEq] at hout
    exact ⟨hout.1.symm, hout.2.symm, by decide, by decide⟩
  case isFalse h => exact absurd hout (by simp)

/-- C2 witness: the theorem applied to contact "Bob" on today =
10.03.2025, whose candidate 15.03.2025 is a Saturday. -/
theorem upcoming_congratulation_shift_witness :
    "17.03.2025" =
      formatDate (specCongratulation (specCandidate ⟨2025, 3, 15⟩
        ⟨2025, 3, 10⟩)) :=
  (upcoming_congratulation_shift ⟨2025, 3, 10⟩ ⟨2025, 3, 15⟩
      ⟨"Bob", [], some ⟨2025, 3, 15⟩⟩ "Bob" "17.03.2025" (by decide)
      (by decide) (by decide) rfl (by decide)).2.1

/-- C3: `Phone(s)` succeeds iff stripping non-digits from `s` leaves
exactly 10 digits, and then stores exactly that stripped string. -/
theorem phone_validation_iff (s : String) :
    ((∃ v, mkPhone s = .ok v) ↔ (stripNonDigits s).length = 10) ∧
      ∀ v, mkPhone s = .ok v → v = stripNonDigits s := by
  have hall : (stripNonDigits s).data.all Char.isDigit = true := by
    simp only [stripNonDigits, List.all_eq_true]
    intro c hc
    exact (List.mem_filter.mp hc).2
  have hvalid : is_valid_phone (stripNonDigits s) =
      ((stripNonDigits s).length == 10) := by
    unfold is_valid_phone
    rw [hall, Bool.true_and]
  constructor
  · constructor
    · rintro ⟨v, hv⟩
      unfold mkPhone at hv
      dsimp only [] at hv
      split at hv
      case isTrue h =>
        rw [hvalid] at h
        simpa using h
      case isFalse h => exact absurd hv (by simp)
    · intro hlen
      refine ⟨stripNonDigits s, ?_⟩
      unfold mkPhone
      dsimp only []
      rw [if_pos]
      rw [hvalid, hlen]
      rfl
  · intro v hv
    unfold mkPhone at hv
    dsimp only [] at hv
    split at hv
    case isTrue h =>
      simp only [Except.ok.injEq] at hv
      exact hv.symm
    case isFalse h => exact absurd hv (by simp)

/-- C3 witness: a formatted phone string strips to 10 digits and is
accepted. -/
theorem phone_validation_iff_witness :
    ∃ v, mkPhone "(050) 123-45-67" = .ok v :=
  (phone_validation_iff "(050) 123-45-67").1.mpr (by decide)

/-- C4 counterexample: `Birthday("5.3.2000")` succeeds although
"5.3.2000" does not match the strict two-digit-day pattern, refuting the
claim that any non-matching string is rejected. -/
theorem birthday_strict_format_counterexample :
    strictFormat "5.3.2000" = false ∧
      parseBirthday "5.3.2000" = some ⟨2000, 3, 5⟩ := by
  constructor
  · decide
  · decide

/-- C4 (amended): `Birthday(raw)` succeeds exactly on strings built from
a one-OR-two digit day, a dot, a one-or-two digit month, a dot, and a
four-digit year that denote a valid calendar date (year at least 1), and
fails with `ValidationError` on every other string. -/
theorem birthday_lenient_parse (s : String) (dt : Date) :
    parseBirthday s = some dt ↔
      ∃ dcs mcs ycs : List Char,
        s.data = dcs ++ '.' :: (mcs ++ '.' :: ycs) ∧
        dcs.all Char.isDigit = true ∧ mcs.all Char.isDigit = true ∧
        ycs.all Char.isDigit = true ∧
        1 ≤ dcs.length ∧ dcs.length ≤ 2 ∧
        1 ≤ mcs.length ∧ mcs.length ≤ 2 ∧ ycs.length = 4 ∧
        dt = ⟨toNatDigits ycs, toNatDigits mcs, toNatDigits dcs⟩ ∧
        validDate dt = true :=
  parseBirthday_eq_some_iff s dt

/-- C5: `edit_phone` with the old phone present and an invalid new phone
reports the phone-validation error and leaves the record (in particular
its phone list) unchanged. -/
theorem edit_phone_invalid_new_unchanged (r : Record) (old new : String)
    (i : Nat) (hold : find_phone r old = some i)
    (hnew : (stripNonDigits new).length ≠ 10) :
    edit_phone r old new =
      (.error "Phone number must contain exactly 10 digits", r) := by
  unfold edit_phone
  rw [hold]
  have hmk : mkPhone new = .error "Phone number must contain exactly 10 digits" := by
    unfold mkPhone
    rw [if_neg]
    unfold is_valid_phone
    simp [hnew]
  rw [hmk]

/-- C5 witness: replacing a present phone by the invalid "123" errors and
keeps the list. -/
theorem edit_phone_invalid_new_unchanged_witness :
    edit_phone ⟨"Ann", ["0501234567"], none⟩ "0501234567" "123" =
      (.error "Phone number must contain exactly 10 digits",
        ⟨"Ann", ["0501234567"], none⟩) :=
  edit_phone_invalid_new_unchanged ⟨"Ann", ["0501234567"], none⟩
    "0501234567" "123" 0 (by decide) (by decide)

/-- C6: parsing a strictly formatted `DD.MM.YYYY` valid date and
rendering it back reproduces the original string. -/
theorem birthday_roundtrip (c1 c2 c3 c4 c5 c6 c7 c8 : Char) (dt : Date)
    (h : parseBirthday
        (String.mk [c1, c2, '.', c3, c4, '.', c5, c6, c7, c8]) = some dt) :
    formatDate dt = String.mk [c1, c2, '.', c3, c4, '.', c5, c6, c7, c8] := by
  rw [parseBirthday_eq_some_iff] at h
  obtain ⟨dcs, mcs, ycs, hdata, hd, hm, hy, hd1, hd2, hm1, hm2, hy4, hdt,
    hvalid⟩ := h
  have hdata2 : [c1, c2, '.', c3, c4, '.', c5, c6, c7, c8] =
      dcs ++ '.' :: (mcs ++ '.' :: ycs) := hdata
  have h10 := congrArg List.length hdata2
  simp only [List.length_append, List.length_cons,
    List.length_nil] at h10
  have hdl : dcs.length = 2 := by omega
  have hml : mcs.length = 2 := by omega
  obtain ⟨a, b, hab⟩ := List.length_eq_two.mp hdl
  obtain ⟨c, d, hcd⟩ := List.length_eq_two.mp hml
  subst hab hcd hdt
  rcases ycs with _ | ⟨e, ycs⟩
  · simp at hy4
  rcases ycs with _ | ⟨f, ycs⟩
  · simp at hy4
  rcases ycs with _ | ⟨g, ycs⟩
  · simp at hy4
  rcases ycs with _ | ⟨i, ycs⟩
  · simp at hy4
  rcases ycs with _ | ⟨j, ycs⟩
  case cons =>
    simp only [List.length_cons] at hy4
    omega
  simp only [List.cons_append, List.nil_append, List.cons.injEq,
    and_true] at hdata2
  obtain ⟨e1, e2, e3⟩ := hdata2
  obtain ⟨e4, e5, e6⟩ := e3.2
  obtain ⟨e7, e8, e9, e10⟩ := e6.2
  subst e1 e2 e4 e5 e7 e8 e9
  subst e10
  simp only [List.all_cons, List.all_nil, Bool.and_eq_true,
    Bool.and_true, and_true] at hd hm hy
  unfold formatDate
  dsimp only []
  rw [pad2_toNatDigits hd.1 hd.2, pad2_toNatDigits hm.1 hm.2,
    pad4_toNatDigits hy.1 hy.2.1 hy.2.2.1 hy.2.2.2]
  rfl

/-- C6 witness: "07.04.1999" parses and formats back to itself. -/
theorem birthday_roundtrip_witness :
    formatDate ⟨1999, 4, 7⟩ =
      String.mk ['0', '7', '.', '0', '4', '.', '1', '9', '9', '9'] :=
  birthday_roundtrip '0' '7' '0' '4' '1' '9' '9' '9' ⟨1999, 4, 7⟩
    (by decide)

/-- C7: adding a record and looking its name up returns that record. -/
theorem add_record_find (book : AddressBook) (r : Record) :
    find (add_record book r) r.name = some r := by
  unfold add_record find
  by_cases h : book.any (fun x => x.name == r.name) = true
  · rw [if_pos h]
    induction book with
    | nil => simp at h
    | cons x xs ih =>
      rw [List.map_cons]
      by_cases hx : (x.name == r.name) = true
      · rw [if_pos hx, List.find?_cons_of_pos]
        simp
      · rw [if_neg hx, List.find?_cons]
        rw [Bool.not_eq_true] at hx
        rw [hx]
        exact ih (by simpa [hx] using h)
  · rw [if_neg h]
    rw [List.find?_append]
    have hnone : book.find? (fun x => x.name == r.name) = none := by
      rw [List.find?_eq_none]
      intro x hx
      intro hcontra
      exact absurd (List.any_eq_true.mpr ⟨x, hx, hcontra⟩) h
    rw [hnone]
    simp [List.find?]

/-- C8: a record renders as `"Contact name: <name>, phones: <p1>; ..."`
with phones joined by `"; "` and a `", birthday: DD.MM.YYYY"` suffix only
when a birthday is set; no phones gives an empty phones segment and no
birthday gives no suffix. -/
theorem record_rendering (name : String) (phones : List String)
    (b : Option Date) :
    (recordStr ⟨name, phones, b⟩ =
        "Contact name: " ++ name ++ ", phones: " ++
          String.intercalate "; " phones ++
          (match b with
            | some d => ", birthday: " ++ formatDate d
            | none => "")) ∧
      recordStr ⟨name, [], b⟩ =
        "Contact name: " ++ name ++ ", phones: " ++
          (match b with
            | some d => ", birthday: " ++ formatDate d
            | none => "") ∧
      recordStr ⟨name, phones, none⟩ =
        "Contact name: " ++ name ++ ", phones: " ++
          String.intercalate "; " phones := by
  refine ⟨?_, ?_, ?_⟩ <;> cases b <;>
    simp [recordStr, String.intercalate, String.append_assoc]

/-- C9: phone lookups never validate the query: an unmatched raw query
makes `find_phone` return "not found", and `remove_phone` / `edit_phone`
fail with the not-found error (not the validation error), regardless of
the query's length. -/
theorem phone_lookup_no_validation (r : Record) (raw : String)
    (h : ∀ p ∈ r.phones, p ≠ stripNonDigits raw) :
    find_phone r raw = none ∧
      remove_phone r raw = (.error "Phone not found", r) ∧
      ∀ new, edit_phone r raw new = (.error "Phone not found", r) := by
  have hfind : find_phone r raw = none := by
    unfold find_phone
    rw [List.findIdx?_eq_none_iff]
    intro x hx
    simpa using h x hx
  refine ⟨hfind, ?_, ?_⟩
  · unfold remove_phone
    rw [hfind]
  · intro new
    unfold edit_phone
    rw [hfind]

/-- C9 witness: the too-short query "123" is reported as not found, not
as invalid. -/
theorem phone_lookup_no_validation_witness :
    remove_phone ⟨"Ann", ["0501234567"], none⟩ "123" =
      (.error "Phone not found", ⟨"Ann", ["0501234567"], none⟩) :=
  (phone_lookup_no_validation ⟨"Ann", ["0501234567"], none⟩ "123"
    (by decide)).2.1

/-- C10: `get_upcoming_birthdays` is read-only: the book afterwards is
exactly the book before, every record unchanged. -/
theorem get_upcoming_birthdays_readonly (book : AddressBook)
    (today : Date) :
    (get_upcoming_birthdays book today).2 = book :=
  rfl

end Bot
